import Mathlib

/-!
Shallow embedding of the HSE TrolleyGAR scraping repository
(`get_colors/scrape_colors.py`, `get_colors/analyze_boundaries.py`,
`old_code/scrape_hse_data.py`) and verification of its specification.

String predicates mirror the Python operations used by the source
(`in`, `startswith`, `endswith`, `lower`) on explicit character lists.
-/

namespace HSE

/-- Predicate `isPrefixL pat s` : `pat` is a prefix of `s` (Python `s.startswith(pat)`
restricted to the front position). -/
def isPrefixL : List Char → List Char → Bool
  | [], _ => true
  | _ :: _, [] => false
  | p :: ps, c :: cs => p == c && isPrefixL ps cs

/-- Predicate `hasSubL pat s` : `pat` occurs as a contiguous substring of `s`
(Python `pat in s`). -/
def hasSubL : List Char → List Char → Bool
  | pat, [] => pat.isEmpty
  | pat, c :: cs => isPrefixL pat (c :: cs) || hasSubL pat cs

/-- Predicate `isSuffixL pat s` : `pat` is a suffix of `s` (Python `s.endswith(pat)`):
`pat` equals one of the tails of `s`. -/
def isSuffixL (pat : List Char) : List Char → Bool
  | [] => pat.isEmpty
  | c :: cs => (pat == c :: cs) || isSuffixL pat cs

/-- Python `s.startswith(pat)`. -/
def startsWithS (s pat : String) : Bool := isPrefixL pat.toList s.toList

/-- Python `s.endswith(pat)`. -/
def endsWithS (s pat : String) : Bool := isSuffixL pat.toList s.toList

/-- Python `pat in s` (case sensitive). -/
def containsS (s pat : String) : Bool := hasSubL pat.toList s.toList

/-- Python `pat in s.lower()`. -/
def containsLowerS (s pat : String) : Bool :=
  hasSubL pat.toList (s.toList.map Char.toLower)

/-- The severity band encoded by a cell's CSS classes
(`scrape_colors.py`, the strings "green"/"amber"/"red"/"none"). -/
inductive Color where
  | green
  | amber
  | red
  | none
deriving DecidableEq, Repr

/-- Function `extract_color` (`scrape_colors.py` lines 16-30): scan the CSS classes in
order; the first class containing "green", "red", or one of
"orange"/"amber"/"yellow" (case-insensitively) decides the color, with
in-class precedence green, red, amber; "none" if no class matches. -/
def extract_color : List String → Color
  | [] => Color.none
  | cls :: rest =>
    if containsLowerS cls "green" then Color.green
    else if containsLowerS cls "red" then Color.red
    else if containsLowerS cls "orange" || containsLowerS cls "amber"
            || containsLowerS cls "yellow" then Color.amber
    else extract_color rest

/-- The category assigned to a single CSS class by `extract_color`'s
per-class keyword tests, `Option.none` when the class matches no keyword. -/
def classColor (cls : String) : Option Color :=
  if containsLowerS cls "green" then some Color.green
  else if containsLowerS cls "red" then some Color.red
  else if containsLowerS cls "orange" || containsLowerS cls "amber"
          || containsLowerS cls "yellow" then some Color.amber
  else Option.none

/-- A table cell as decoded from the markup: text content, `colspan`
(default 1), CSS classes, and the `width` attribute when present. -/
structure Cell where
  text : String := ""
  colspan : Nat := 1
  classes : List String := []
  width : Option String := Option.none
deriving DecidableEq, Repr

/-- Default cell (used only under guards that make the default unreachable). -/
def cellD : Cell := {}

/-- Advance past at most one immediately-following empty cell
(the `if cells[i].get_text(strip=True) == '': i += 1` separator skip
shared by `scrape_with_colors_v2` and `scrape_hse_trolleygar`). -/
def skipSep (l : List Cell) : List Cell :=
  if (l.headD cellD).text = "" then l.tail else l

/-- Python `s if s else None`: a falsy-string-to-None conversion. -/
def optVal (s : String) : Option String :=
  if s = "" then Option.none else some s

/-- One collected statistic cell of `scrape_with_colors_v2`: its stripped
text and extracted color. -/
structure StatV where
  value : String
  color : Color
deriving DecidableEq, Repr

/-- Default statistic cell (unreachable under the length guards). -/
def statD : StatV := { value := "", color := Color.none }

/-- The record built by `scrape_with_colors_v2` for one entity
(`scrape_colors.py` lines 212-224). -/
structure RecordV2 where
  date : String
  hospital : String
  ed_trolleys : Option String
  ward_trolleys : Option String
  total_trolleys : Option String
  total_color : Color
  surge : Option String
  delayed : Option String
  delayed_color : Color
  gt_24hrs : Option String
  gt_75_24hrs : Option String
deriving DecidableEq, Repr

/-- Assemble a `RecordV2` from the collected statistic cells, reading the
positional slots 0,1,2,4,6,8,10 with colors at slots 2 and 6. -/
def mkRecordV2 (date name : String) (stats : List StatV) : RecordV2 :=
  { date := date
    hospital := name
    ed_trolleys := optVal (stats.getD 0 statD).value
    ward_trolleys := optVal (stats.getD 1 statD).value
    total_trolleys := optVal (stats.getD 2 statD).value
    total_color := (stats.getD 2 statD).color
    surge := optVal (stats.getD 4 statD).value
    delayed := optVal (stats.getD 6 statD).value
    delayed_color := (stats.getD 6 statD).color
    gt_24hrs := optVal (stats.getD 8 statD).value
    gt_75_24hrs := optVal (stats.getD 10 statD).value }

/-- The regional-header test of `scrape_with_colors_v2`
(`scrape_colors.py` lines 180-184): starts with "HSE ", does not contain
"Total" anywhere, and does not end with "Hospital". -/
def isRegionalHeaderV2 (t : String) : Bool :=
  startsWithS t "HSE " && !containsS t "Total" && !endsWithS t "Hospital"

/-- The cell-cursor loop of `scrape_with_colors_v2`
(`scrape_colors.py` lines 171-227): at a boundary cell (`colspan >= 8`,
non-empty text) that is not a regional header, skip one empty separator,
collect up to 12 statistic cells, and emit a record when at least 11 were
collected. -/
def scrapeV2Fuel (date : String) : Nat → List Cell → List RecordV2
  | 0, _ => []
  | _ + 1, [] => []
  | fuel + 1, c :: cs =>
    if 8 ≤ c.colspan ∧ c.text ≠ "" then
      if isRegionalHeaderV2 c.text then
        scrapeV2Fuel date fuel cs
      else
        let stats := ((skipSep cs).take 12).map
          (fun d => { value := d.text, color := extract_color d.classes : StatV })
        if 11 ≤ stats.length then
          mkRecordV2 date c.text stats :: scrapeV2Fuel date fuel ((skipSep cs).drop 12)
        else
          scrapeV2Fuel date fuel ((skipSep cs).drop 12)
    else scrapeV2Fuel date fuel cs

/-- Function `scrape_with_colors_v2` applied to the flat cell list of the page's
table: run the cursor loop with enough fuel for every cell (each loop
iteration consumes at least one cell, so the cell count bounds the number
of iterations of the Python `while`). -/
def scrapeV2Go (date : String) (cells : List Cell) : List RecordV2 :=
  scrapeV2Fuel date cells.length cells

/-- The record built by `scrape_hse_trolleygar` for one entity of the
master row (`scrape_hse_data.py` lines 122-132): positional slots
0,1,2,4,6,8,10 of the 11 collected cells, empty texts kept as `None`. -/
structure RecordOld where
  hospital : String
  ed_trolleys : Option String
  ward_trolleys : Option String
  total_trolleys : Option String
  surge_capacity : Option String
  delayed_transfers : Option String
  gt_24hrs : Option String
  gt_75_24hrs : Option String
deriving DecidableEq, Repr

/-- Assemble a `RecordOld` from the collected optional statistic texts. -/
def mkRecordOld (name : String) (stats : List (Option String)) : RecordOld :=
  { hospital := name
    ed_trolleys := stats.getD 0 Option.none
    ward_trolleys := stats.getD 1 Option.none
    total_trolleys := stats.getD 2 Option.none
    surge_capacity := stats.getD 4 Option.none
    delayed_transfers := stats.getD 6 Option.none
    gt_24hrs := stats.getD 8 Option.none
    gt_75_24hrs := stats.getD 10 Option.none }

/-- The regional-header test of `scrape_hse_trolleygar`
(`scrape_hse_data.py` lines 89-93): starts with "HSE ", does not end with
"Total", and does not end with "Hospital". -/
def isRegionalHeaderOld (t : String) : Bool :=
  startsWithS t "HSE " && !endsWithS t "Total" && !endsWithS t "Hospital"

/-- The cell-cursor loop of `scrape_hse_trolleygar` over the master row
(`scrape_hse_data.py` lines 78-135): at a boundary cell (`colspan >= 8`)
that is not a regional header, skip one empty separator, collect up to 11
statistic cells, and emit a record when the name is non-empty and 11 cells
were collected; a regional header is skipped together with one following
empty separator. -/
def parseMasterFuel : Nat → List Cell → List RecordOld
  | 0, _ => []
  | _ + 1, [] => []
  | fuel + 1, c :: cs =>
    if 8 ≤ c.colspan then
      if isRegionalHeaderOld c.text then
        parseMasterFuel fuel (skipSep cs)
      else
        let stats := ((skipSep cs).take 11).map (fun d => optVal d.text)
        if c.text ≠ "" ∧ 11 ≤ stats.length then
          mkRecordOld c.text stats :: parseMasterFuel fuel ((skipSep cs).drop 11)
        else
          parseMasterFuel fuel ((skipSep cs).drop 11)
    else parseMasterFuel fuel cs

/-- The master-row parse of `scrape_hse_trolleygar` applied to the row's cell
list: run the cursor loop with enough fuel for every cell (each loop
iteration consumes at least one cell, so the cell count bounds the number
of iterations of the Python `while`). -/
def parseMasterRow (cells : List Cell) : List RecordOld :=
  parseMasterFuel cells.length cells

/-- Number of entity-boundary cells of a row, as counted by the master-row
search (`scrape_hse_data.py` line 65): cells with `colspan >= 8`. -/
def boundaryCount (row : List Cell) : Nat :=
  (row.filter (fun c => decide (8 ≤ c.colspan))).length

/-- The master-row search (`scrape_hse_data.py` lines 59-73): the first row
among `rows[2:]` with at least 50 boundary cells, `Option.none` when no row
qualifies ("Could not find master data row!"). -/
def findMasterRow (rows : List (List Cell)) : Option (List Cell) :=
  (rows.drop 2).find? (fun r => decide (50 ≤ boundaryCount r))

/-- The record built by `scrape_with_colors` for one row
(`scrape_colors.py` lines 110-131): the first three non-empty values are
ED, ward and total (the total carrying its color), with surge and delayed
captured only when present. -/
structure RecordV1 where
  date : String
  hospital : String
  ed_trolleys : String
  ward_trolleys : String
  total_trolleys : String
  total_color : Color
  surge : Option String
  surge_color : Option Color
  delayed : Option String
  delayed_color : Option Color
deriving DecidableEq, Repr

/-- The `data_cells` filter of `scrape_with_colors`
(`scrape_colors.py` lines 91-103): cells after the name cell with
`colspan == 1` and a `width` attribute of "10", "50" or "30". -/
def v1DataCells (row : List Cell) : List Cell :=
  (row.drop 1).filter (fun c =>
    c.colspan == 1 &&
      (c.width == some "10" || c.width == some "50" || c.width == some "30"))

/-- The `values` list of `scrape_with_colors` (`scrape_colors.py`
line 117): the data cells with non-empty text. -/
def v1Values (row : List Cell) : List Cell :=
  (v1DataCells row).filter (fun c => c.text != "")

/-- The body of `scrape_with_colors`'s per-row loop
(`scrape_colors.py` lines 65-133): rows with fewer than 5 cells, rows not
opened by a `colspan >= 8` cell, regional headers (name starting with
"HSE " and not containing "Total"), empty names, and entities with fewer
than 3 non-empty values all yield no record. -/
def rowRecordV1 (date : String) (row : List Cell) : Option RecordV1 :=
  if row.length < 5 then Option.none
  else
    match row with
    | [] => Option.none
    | first :: _ =>
      if 8 ≤ first.colspan then
        if startsWithS first.text "HSE " && !containsS first.text "Total" then
          Option.none
        else if first.text = "" then Option.none
        else
          let values := v1Values row
          if 3 ≤ values.length then
            some { date := date
                   hospital := first.text
                   ed_trolleys := (values.getD 0 cellD).text
                   ward_trolleys := (values.getD 1 cellD).text
                   total_trolleys := (values.getD 2 cellD).text
                   total_color := extract_color (values.getD 2 cellD).classes
                   surge := (values[3]?).map (fun c => c.text)
                   surge_color := (values[3]?).map (fun c => extract_color c.classes)
                   delayed := (values[4]?).map (fun c => c.text)
                   delayed_color := (values[4]?).map (fun c => extract_color c.classes) }
          else Option.none
      else Option.none

/-- Function `scrape_with_colors` over the table's rows: one candidate record per
row, rows yielding no record silently dropped. -/
def scrape_with_colors (date : String) (rows : List (List Cell)) : List RecordV1 :=
  rows.filterMap (rowRecordV1 date)

/-- One valid (numeric-count) observation of a hospital: report date,
numeric `total_trolleys`, and its color band. Rows whose count failed
numeric conversion are dropped upstream (`dropna`). -/
structure Obs where
  date : String := ""
  count : Int
  color : Color
deriving DecidableEq, Repr

/-- Maximum of a list of integers, `Option.none` on the empty list
(pandas `Series.max()` guarded by `len > 0`). -/
def listMax : List Int → Option Int
  | [] => Option.none
  | x :: xs =>
    match listMax xs with
    | Option.none => some x
    | some m => some (max x m)

/-- Minimum of a list of integers, `Option.none` on the empty list
(pandas `Series.min()` guarded by `len > 0`). -/
def listMin : List Int → Option Int
  | [] => Option.none
  | x :: xs =>
    match listMin xs with
    | Option.none => some x
    | some m => some (min x m)

/-- The counts of a hospital's observations carrying a given color
(`analyze_boundaries.py` lines 34-36). -/
def colorVals (c : Color) (l : List Obs) : List Int :=
  (l.filter (fun o => decide (o.color = c))).map (fun o => o.count)

/-- The `amber_threshold` computation of `analyze_hospital_thresholds`
(`analyze_boundaries.py` lines 52-58): `min(green_max + 1, amber_min)` when
both exist, else `amber_min` when it exists, else null. -/
def amber_threshold (l : List Obs) : Option Int :=
  match listMax (colorVals Color.green l), listMin (colorVals Color.amber l) with
  | some gmax, some amin => some (min (gmax + 1) amin)
  | Option.none, some amin => some amin
  | _, Option.none => Option.none

/-- The `red_threshold` computation of `analyze_hospital_thresholds`
(`analyze_boundaries.py` lines 60-69): `min(amber_max + 1, red_min)` when
both exist; else `red_min` (whether or not a green max exists); else null. -/
def red_threshold (l : List Obs) : Option Int :=
  match listMax (colorVals Color.amber l), listMax (colorVals Color.green l),
        listMin (colorVals Color.red l) with
  | some amax, _, some rmin => some (min (amax + 1) rmin)
  | Option.none, some _, some rmin => some rmin
  | Option.none, Option.none, some rmin => some rmin
  | _, _, Option.none => Option.none

/-- The count-ascending order on observations used by
`sort_values('total_num')`. -/
def obsLE : Obs → Obs → Prop := fun a b => a.count ≤ b.count

instance : DecidableRel obsLE := fun a b => Int.decLe a.count b.count

instance : IsTotal Obs obsLE := ⟨fun a b => Int.le_total a.count b.count⟩

instance : IsTrans Obs obsLE := ⟨fun _ _ _ hab hbc => le_trans hab hbc⟩

/-- Python `hosp_data.sort_values('total_num')`: sort a hospital's observations
by count ascending (ties in an unspecified order in pandas; insertion
sort order here). -/
def sortObs (l : List Obs) : List Obs := List.insertionSort obsLE l

/-- The adjacent pairs of a list, in order. -/
def adjPairs : List Obs → List (Obs × Obs)
  | a :: b :: rest => (a, b) :: adjPairs (b :: rest)
  | _ => []

/-- An exact boundary reported by `find_exact_boundaries`
(`analyze_boundaries.py` lines 100-106); `boundary_type` is the
"from→to" transition pair. -/
structure ExactBoundary where
  hospital : String
  from_color : Color
  to_color : Color
  below_threshold : Int
  at_threshold : Int
  proven : Bool
deriving DecidableEq, Repr

/-- The `prev`-threaded scan of `find_exact_boundaries`
(`analyze_boundaries.py` lines 94-107): report each adjacent pair of the
count-sorted data whose difference is exactly 1 and whose colors differ. -/
def scanExact (h : String) : Option Obs → List Obs → List ExactBoundary
  | _, [] => []
  | Option.none, x :: xs => scanExact h (some x) xs
  | some p, x :: xs =>
    if x.count - p.count = 1 ∧ x.color ≠ p.color then
      { hospital := h, from_color := p.color, to_color := x.color
        below_threshold := p.count, at_threshold := x.count, proven := true }
        :: scanExact h (some x) xs
    else scanExact h (some x) xs

/-- Function `find_exact_boundaries` restricted to one hospital's valid
observations (`analyze_boundaries.py` lines 90-107): sort by count
ascending, then scan adjacent pairs. -/
def find_exact_boundaries (h : String) (l : List Obs) : List ExactBoundary :=
  scanExact h Option.none (sortObs l)

/-- A color transition reported by the inline `find_color_boundaries`
(`scrape_colors.py` lines 299-308): any adjacent color change in the
count-sorted data, with the (possibly 0 or > 1) count difference. -/
structure ColorBoundary where
  hospital : String
  from_value : Int
  from_color : Color
  to_value : Int
  to_color : Color
  difference : Int
  from_date : String
  to_date : String
deriving DecidableEq, Repr

/-- The `prev`-threaded scan of `find_color_boundaries`
(`scrape_colors.py` lines 293-309): report each adjacent pair whose colors
differ, with no condition on the count difference. -/
def scanColorB (h : String) : Option Obs → List Obs → List ColorBoundary
  | _, [] => []
  | Option.none, x :: xs => scanColorB h (some x) xs
  | some p, x :: xs =>
    if p.color ≠ x.color then
      { hospital := h, from_value := p.count, from_color := p.color
        to_value := x.count, to_color := x.color
        difference := x.count - p.count
        from_date := p.date, to_date := x.date }
        :: scanColorB h (some x) xs
    else scanColorB h (some x) xs

/-- Function `find_color_boundaries` restricted to one hospital's valid
observations (`scrape_colors.py` lines 288-309): sort by count ascending,
then scan adjacent pairs for color changes. -/
def find_color_boundaries (h : String) (l : List Obs) : List ColorBoundary :=
  scanColorB h Option.none (sortObs l)

/-- pandas `drop_duplicates()` keeping first occurrences: the accumulator
holds the rows already seen. -/
def dropDupSeen {α : Type} [DecidableEq α] (seen : List α) : List α → List α
  | [] => []
  | x :: xs =>
    if x ∈ seen then dropDupSeen seen xs
    else x :: dropDupSeen (x :: seen) xs

/-- pandas `drop_duplicates()` on a row list, keeping first occurrences. -/
def dropDup {α : Type} [DecidableEq α] (l : List α) : List α :=
  dropDupSeen [] l

/-- The append-with-dedup path of `save_to_csv`
(`scrape_hse_data.py` lines 173-181): concatenate the existing stored rows
with the new rows and drop duplicate rows. -/
def appendDedup {α : Type} [DecidableEq α] (existing new : List α) : List α :=
  dropDup (existing ++ new)

/-- An EntityRecord-shaped row as persisted by `save_to_csv`
(`scrape_hse_data.py` lines 138-151): the eight data columns plus the
scrape and report date metadata columns. -/
structure CsvRow where
  hospital : String
  ed_trolleys : Option String
  ward_trolleys : Option String
  total_trolleys : Option String
  surge_capacity : Option String
  delayed_transfers : Option String
  gt_24hrs : Option String
  gt_75_24hrs : Option String
  scrape_date : String
  report_date : String
deriving DecidableEq, Repr

/-- Spec-side restatement of the classifier after correction: the category
of the first CSS class (in input order) matching any keyword, `Color.none`
when no class matches. -/
def firstMatchingClassColor (classes : List String) : Color :=
  match classes.filterMap classColor with
  | [] => Color.none
  | c :: _ => c

/-- C1's observation history: `[(15, amber), (20, amber), (30, red)]`. -/
def c1obs : List Obs :=
  [⟨"", 15, Color.amber⟩, ⟨"", 20, Color.amber⟩, ⟨"", 30, Color.red⟩]

/-- C3's observation history: `[(10, green), (11, amber)]`. -/
def c3obs : List Obs := [⟨"", 10, Color.green⟩, ⟨"", 11, Color.amber⟩]

/-- C7's counterexample history: an amber observation above a red one. -/
def c7obs : List Obs := [⟨"", 5, Color.amber⟩, ⟨"", 3, Color.red⟩]

/-- C10's observation history: a color change with a count difference
of 3. -/
def c10obs : List Obs :=
  [⟨"01/01/2026", 10, Color.green⟩, ⟨"02/01/2026", 13, Color.amber⟩]

/-- C10's second history: a color change with a count difference of 0. -/
def c10obs0 : List Obs :=
  [⟨"03/01/2026", 7, Color.green⟩, ⟨"04/01/2026", 7, Color.amber⟩]

/-- A plain statistic cell holding only text. -/
def statCell (s : String) : Cell := { text := s }

/-- A realistic 12-cell statistics block: ED, ward, total, spacer, surge,
spacer, delayed, spacer, >24h, spacer, >75 & >24h, spacer. -/
def demoStatCells : List Cell :=
  [statCell "9", statCell "7", statCell "16", statCell "", statCell "2",
   statCell "", statCell "0", statCell "", statCell "1", statCell "",
   statCell "0", statCell ""]

/-- A real hospital entity: boundary cell plus statistics block. -/
def hospCells : List Cell :=
  { text := "University Hospital Limerick", colspan := 10 } :: demoStatCells

/-- A regional section-header cell. -/
def regionalHeaderCell : Cell :=
  { text := "HSE West and North West", colspan := 10 }

/-- A national-total entity: its name ends with "Total". -/
def totalCells : List Cell :=
  { text := "HSE National Total", colspan := 10 } :: demoStatCells

/-- C5's counterexample entity: the name starts with "HSE ", contains
"Total" only as a non-suffix substring, and ends with neither recognized
suffix. -/
def c5cex : List Cell :=
  { text := "HSE Totals", colspan := 10 } :: demoStatCells

/-- A header row without boundary cells. -/
def c6header : List Cell := [{ text := "Daily Trolley Count" }]

/-- A qualifying master row: 62 boundary cells. -/
def c6qual : List Cell := List.replicate 62 { text := "H", colspan := 10 : Cell }

/-- A trailing noise row with fewer than 50 boundary cells. -/
def c6noise : List Cell := [{ text := "note", colspan := 10 }]

/-- C8's counterexample entity: 12 statistic cells of which only 2 are
non-empty. -/
def c8cells : List Cell :=
  { text := "Mercy University Hospital", colspan := 10 } ::
    [statCell "5", statCell "", statCell "7", statCell "", statCell "",
     statCell "", statCell "", statCell "", statCell "", statCell "",
     statCell "", statCell ""]

/-- C8's truncated entity: the cell list ends after 5 statistic cells. -/
def c8trunc : List Cell :=
  { text := "Mercy University Hospital", colspan := 10 } ::
    [statCell "5", statCell "6", statCell "7", statCell "1", statCell "2"]

/-- A concrete persisted row for the dedup witnesses. -/
def c9row : CsvRow :=
  { hospital := "Mater Misericordiae University Hospital"
    ed_trolleys := some "12", ward_trolleys := some "3"
    total_trolleys := some "15", surge_capacity := some "0"
    delayed_transfers := some "4", gt_24hrs := some "1"
    gt_75_24hrs := some "0"
    scrape_date := "2026-01-05 08:00:00", report_date := "05/01/2026" }

/-- A second distinct persisted row for the dedup witnesses. -/
def c9row2 : CsvRow :=
  { c9row with hospital := "St. Vincents University Hospital",
               total_trolleys := some "9" }

/-! ### Helper lemmas -/

theorem isPrefixL_self (l : List Char) : isPrefixL l l = true := by
  induction l with
  | nil => rfl
  | cons c cs ih => simp [isPrefixL, ih]

theorem hasSubL_of_isSuffixL {pat s : List Char} (h : isSuffixL pat s = true) :
    hasSubL pat s = true := by
  induction s with
  | nil => simpa [isSuffixL, hasSubL] using h
  | cons c cs ih =>
    rw [isSuffixL, Bool.or_eq_true] at h
    rw [hasSubL, Bool.or_eq_true]
    rcases h with h1 | h2
    · left
      have hpat : pat = c :: cs := by simpa using h1
      rw [hpat]
      exact isPrefixL_self _
    · right
      exact ih h2

theorem containsS_of_endsWithS {t pat : String} (h : endsWithS t pat = true) :
    containsS t pat = true :=
  hasSubL_of_isSuffixL h

theorem listMin_eq_none {l : List Int} : listMin l = Option.none ↔ l = [] := by
  cases l with
  | nil => simp [listMin]
  | cons x xs =>
    simp only [listMin]
    cases listMin xs <;> simp

theorem listMax_eq_none {l : List Int} : listMax l = Option.none ↔ l = [] := by
  cases l with
  | nil => simp [listMax]
  | cons x xs =>
    simp only [listMax]
    cases listMax xs <;> simp

theorem listMin_spec :
    ∀ {l : List Int} {m : Int}, listMin l = some m → m ∈ l ∧ ∀ x ∈ l, m ≤ x := by
  intro l
  induction l with
  | nil => intro m h; simp [listMin] at h
  | cons y ys ih =>
    intro m h
    rw [listMin] at h
    cases hys : listMin ys with
    | none =>
      rw [hys] at h
      have hnil : ys = [] := listMin_eq_none.mp hys
      have hm : m = y := by simpa using h.symm
      subst hm hnil
      simp
    | some m' =>
      rw [hys] at h
      have hm : m = min y m' := by simpa using h.symm
      obtain ⟨hmem', hle'⟩ := ih hys
      subst hm
      constructor
      · rcases min_choice y m' with hc | hc <;> rw [hc]
        · exact List.mem_cons_self _ _
        · exact List.mem_cons_of_mem _ hmem'
      · intro x hx
        rcases List.mem_cons.mp hx with rfl | hx'
        · exact min_le_left _ _
        · exact le_trans (min_le_right _ _) (hle' x hx')

theorem listMax_spec :
    ∀ {l : List Int} {m : Int}, listMax l = some m → m ∈ l ∧ ∀ x ∈ l, x ≤ m := by
  intro l
  induction l with
  | nil => intro m h; simp [listMax] at h
  | cons y ys ih =>
    intro m h
    rw [listMax] at h
    cases hys : listMax ys with
    | none =>
      rw [hys] at h
      have hnil : ys = [] := listMax_eq_none.mp hys
      have hm : m = y := by simpa using h.symm
      subst hm hnil
      simp
    | some m' =>
      rw [hys] at h
      have hm : m = max y m' := by simpa using h.symm
      obtain ⟨hmem', hle'⟩ := ih hys
      subst hm
      constructor
      · rcases max_choice y m' with hc | hc <;> rw [hc]
        · exact List.mem_cons_self _ _
        · exact List.mem_cons_of_mem _ hmem'
      · intro x hx
        rcases List.mem_cons.mp hx with rfl | hx'
        · exact le_max_left _ _
        · exact le_trans (hle' x hx') (le_max_right _ _)

theorem scanExact_eq_adjPairs (h : String) (l : List Obs) :
    ∀ p : Obs,
      scanExact h (some p) l = (adjPairs (p :: l)).filterMap (fun pr =>
        if pr.2.count - pr.1.count = 1 ∧ pr.2.color ≠ pr.1.color then
          some { hospital := h, from_color := pr.1.color, to_color := pr.2.color,
                 below_threshold := pr.1.count, at_threshold := pr.2.count,
                 proven := true }
        else Option.none) := by
  induction l with
  | nil => intro p; rfl
  | cons x xs ih =>
    intro p
    by_cases hc : x.count - p.count = 1 ∧ x.color ≠ p.color
    · simp only [scanExact, if_pos hc, adjPairs, List.filterMap_cons, if_pos hc, ih x]
    · simp only [scanExact, if_neg hc, adjPairs, List.filterMap_cons, if_neg hc, ih x]

theorem scanColorB_eq_adjPairs (h : String) (l : List Obs) :
    ∀ p : Obs,
      scanColorB h (some p) l = (adjPairs (p :: l)).filterMap (fun pr =>
        if pr.1.color ≠ pr.2.color then
          some { hospital := h, from_value := pr.1.count, from_color := pr.1.color,
                 to_value := pr.2.count, to_color := pr.2.color,
                 difference := pr.2.count - pr.1.count,
                 from_date := pr.1.date, to_date := pr.2.date }
        else Option.none) := by
  induction l with
  | nil => intro p; rfl
  | cons x xs ih =>
    intro p
    by_cases hc : p.color ≠ x.color
    · simp only [scanColorB, if_pos hc, adjPairs, List.filterMap_cons, if_pos hc, ih x]
    · simp only [scanColorB, if_neg hc, adjPairs, List.filterMap_cons, if_neg hc, ih x]

theorem mem_dropDupSeen {α : Type} [DecidableEq α] (x : α) :
    ∀ (l seen : List α), x ∈ dropDupSeen seen l ↔ x ∈ l ∧ x ∉ seen := by
  intro l
  induction l with
  | nil => intro seen; simp [dropDupSeen]
  | cons y ys ih =>
    intro seen
    by_cases hy : y ∈ seen
    · rw [dropDupSeen, if_pos hy, ih]
      constructor
      · rintro ⟨hx, hs⟩
        exact ⟨List.mem_cons_of_mem _ hx, hs⟩
      · rintro ⟨hx, hs⟩
        rcases List.mem_cons.mp hx with rfl | hx'
        · exact absurd hy hs
        · exact ⟨hx', hs⟩
    · rw [dropDupSeen, if_neg hy]
      constructor
      · intro hx
        rcases List.mem_cons.mp hx with rfl | hx'
        · exact ⟨List.mem_cons_self _ _, hy⟩
        · obtain ⟨h1, h2⟩ := (ih (y :: seen)).mp hx'
          exact ⟨List.mem_cons_of_mem _ h1,
                 fun hs => h2 (List.mem_cons_of_mem _ hs)⟩
      · rintro ⟨hx, hs⟩
        rcases List.mem_cons.mp hx with rfl | hx'
        · exact List.mem_cons_self _ _
        · by_cases hxy : x = y
          · subst hxy
            exact List.mem_cons_self _ _
          · refine List.mem_cons_of_mem _ ((ih (y :: seen)).mpr ⟨hx', ?_⟩)
            intro hmem
            rcases List.mem_cons.mp hmem with h1 | h1
            · exact hxy h1
            · exact hs h1

theorem nodup_dropDupSeen {α : Type} [DecidableEq α] :
    ∀ (l seen : List α), (dropDupSeen seen l).Nodup := by
  intro l
  induction l with
  | nil => intro seen; simp [dropDupSeen]
  | cons y ys ih =>
    intro seen
    by_cases hy : y ∈ seen
    · rw [dropDupSeen, if_pos hy]
      exact ih seen
    · rw [dropDupSeen, if_neg hy]
      refine List.nodup_cons.mpr ⟨?_, ih (y :: seen)⟩
      intro hmem
      exact ((mem_dropDupSeen y ys (y :: seen)).mp hmem).2 (List.mem_cons_self _ _)

theorem dropDupSeen_eq_nil {α : Type} [DecidableEq α] :
    ∀ (l seen : List α), (∀ x ∈ l, x ∈ seen) → dropDupSeen seen l = [] := by
  intro l
  induction l with
  | nil => intro seen _; rfl
  | cons y ys ih =>
    intro seen hall
    rw [dropDupSeen, if_pos (hall y (List.mem_cons_self _ _))]
    exact ih seen (fun x hx => hall x (List.mem_cons_of_mem _ hx))

theorem dropDupSeen_append_absorb {α : Type} [DecidableEq α] :
    ∀ (l1 l2 seen : List α), (∀ x ∈ l2, x ∈ seen ∨ x ∈ l1) →
      dropDupSeen seen (l1 ++ l2) = dropDupSeen seen l1 := by
  intro l1
  induction l1 with
  | nil =>
    intro l2 seen hall
    simp only [List.nil_append]
    rw [show dropDupSeen seen ([] : List α) = [] from rfl]
    exact dropDupSeen_eq_nil l2 seen
      (fun x hx => (hall x hx).resolve_right (by simp))
  | cons y ys ih =>
    intro l2 seen hall
    by_cases hy : y ∈ seen
    · rw [List.cons_append, dropDupSeen, if_pos hy, dropDupSeen, if_pos hy]
      refine ih l2 seen (fun x hx => ?_)
      rcases hall x hx with h | h
      · exact Or.inl h
      · rcases List.mem_cons.mp h with rfl | h'
        · exact Or.inl hy
        · exact Or.inr h'
    · rw [List.cons_append, dropDupSeen, if_neg hy, dropDupSeen, if_neg hy]
      congr 1
      refine ih l2 (y :: seen) (fun x hx => ?_)
      rcases hall x hx with h | h
      · exact Or.inl (List.mem_cons_of_mem _ h)
      · rcases List.mem_cons.mp h with rfl | h'
        · exact Or.inl (List.mem_cons_self _ _)
        · exact Or.inr h'

theorem mem_dropDup {α : Type} [DecidableEq α] {x : α} {l : List α} :
    x ∈ dropDup l ↔ x ∈ l := by
  simp [dropDup, mem_dropDupSeen]

theorem dropDup_eq_self_of_nodup {α : Type} [DecidableEq α] :
    ∀ l : List α, l.Nodup → dropDup l = l := by
  have aux : ∀ (l seen : List α), l.Nodup → (∀ x ∈ l, x ∉ seen) →
      dropDupSeen seen l = l := by
    intro l
    induction l with
    | nil => intro seen _ _; rfl
    | cons y ys ih =>
      intro seen hnd hdisj
      rw [dropDupSeen, if_neg (hdisj y (List.mem_cons_self _ _))]
      congr 1
      refine ih (y :: seen) (List.nodup_cons.mp hnd).2 (fun x hx hmem => ?_)
      rcases List.mem_cons.mp hmem with rfl | h'
      · exact (List.nodup_cons.mp hnd).1 hx
      · exact hdisj x (List.mem_cons_of_mem _ hx) h'
  intro l hnd
  exact aux l [] hnd (by simp)

theorem list_find?_first {α : Type} {p : α → Bool} :
    ∀ (l : List α) (a : α), l.find? p = some a →
      ∃ pre post, l = pre ++ a :: post ∧ p a = true ∧ ∀ x ∈ pre, p x = false := by
  intro l
  induction l with
  | nil => intro a h; simp [List.find?] at h
  | cons y ys ih =>
    intro a h
    by_cases hy : p y = true
    · rw [List.find?_cons_of_pos _ hy] at h
      have hya : y = a := by simpa using h
      subst hya
      exact ⟨[], ys, rfl, hy, by simp⟩
    · rw [List.find?_cons_of_neg _ (by simpa using hy)] at h
      obtain ⟨pre, post, heq, hpa, hpre⟩ := ih a h
      refine ⟨y :: pre, post, by rw [heq, List.cons_append], hpa, ?_⟩
      intro x hx
      rcases List.mem_cons.mp hx with rfl | hx'
      · exact Bool.not_eq_true _ ▸ eq_false_of_ne_true hy
      · exact hpre x hx'

theorem scrapeV2Fuel_no_header (date : String) :
    ∀ (fuel : Nat) (cells : List Cell) (r : RecordV2),
      r ∈ scrapeV2Fuel date fuel cells → isRegionalHeaderV2 r.hospital = false := by
  intro fuel
  induction fuel with
  | zero =>
    intro cells r hr
    simp [scrapeV2Fuel] at hr
  | succ f ih =>
    intro cells r hr
    match cells with
    | [] => simp [scrapeV2Fuel] at hr
    | c :: cs =>
      rw [scrapeV2Fuel] at hr
      split at hr
      · split at hr
        · exact ih cs r hr
        · rename_i hbnd hhdr
          simp only at hr
          split at hr
          · rcases List.mem_cons.mp hr with h | h
            · subst h
              simpa [mkRecordV2] using eq_false_of_ne_true hhdr
            · exact ih _ r h
          · exact ih _ r hr
      · exact ih cs r hr

theorem parseMasterFuel_no_header :
    ∀ (fuel : Nat) (cells : List Cell) (r : RecordOld),
      r ∈ parseMasterFuel fuel cells → isRegionalHeaderOld r.hospital = false := by
  intro fuel
  induction fuel with
  | zero =>
    intro cells r hr
    simp [parseMasterFuel] at hr
  | succ f ih =>
    intro cells r hr
    match cells with
    | [] => simp [parseMasterFuel] at hr
    | c :: cs =>
      rw [parseMasterFuel] at hr
      split at hr
      · split at hr
        · exact ih _ r hr
        · rename_i hbnd hhdr
          simp only at hr
          split at hr
          · rcases List.mem_cons.mp hr with h | h
            · subst h
              simpa [mkRecordOld] using eq_false_of_ne_true hhdr
            · exact ih _ r h
          · exact ih _ r hr
      · exact ih cs r hr

theorem rowRecordV1_undersized (date : String) (row : List Cell)
    (h : (v1Values row).length < 3) : rowRecordV1 date row = Option.none := by
  rw [rowRecordV1.eq_def]
  split
  · rfl
  · split
    · rfl
    · split
      · split
        · rfl
        · split
          · rfl
          · simp only
            split
            · omega
            · rfl
      · rfl

theorem extract_color_cons (c : String) (rest : List String) :
    extract_color (c :: rest) =
      match classColor c with
      | some col => col
      | Option.none => extract_color rest := by
  simp only [extract_color, classColor]
  split_ifs <;> rfl

/-! ### Claim theorems -/

/-- C1 (amended): for a hospital whose only valid observations are
[(15, amber), (20, amber), (30, red)] (no green observations), the
threshold inference returns amberThreshold = 15 (the amber minimum) and
redThreshold = 21 (min(amberMax + 1, redMin)). -/
theorem c1_no_green_thresholds :
    amber_threshold c1obs = some 15 ∧ red_threshold c1obs = some 21 := by
  decide

/-- C1 counterexample: on the history [(15, amber), (20, amber), (30, red)]
the claimed output (amberThreshold null and redThreshold = 30) is false:
the code returns amberThreshold = 15 and redThreshold = 21. -/
theorem c1_spec_values_refuted :
    ¬ (amber_threshold c1obs = Option.none ∧ red_threshold c1obs = some 30) := by
  decide

/-- C2: for every hospital whose valid observations include at least one
green-colored count and at least one amber-colored count, the inferred
amber threshold equals min(max of green counts + 1, min of amber counts). -/
theorem c2_amber_threshold_formula (l : List Obs) (gmax amin : Int)
    (hg : listMax (colorVals Color.green l) = some gmax)
    (ha : listMin (colorVals Color.amber l) = some amin) :
    amber_threshold l = some (min (gmax + 1) amin) := by
  simp only [amber_threshold, hg, ha]

theorem c2_amber_threshold_formula_witness :
    listMax (colorVals Color.green [⟨"", 10, Color.green⟩, ⟨"", 14, Color.amber⟩])
      = some 10
    ∧ listMin (colorVals Color.amber [⟨"", 10, Color.green⟩, ⟨"", 14, Color.amber⟩])
      = some 14
    ∧ amber_threshold [⟨"", 10, Color.green⟩, ⟨"", 14, Color.amber⟩]
      = some (min (10 + 1) 14) :=
  ⟨by decide, by decide,
    c2_amber_threshold_formula _ 10 14 (by decide) (by decide)⟩

/-- C3: for every hospital, after sorting its valid observations by count
ascending (the sort is a permutation and is sorted), exactly the adjacent
pairs whose counts differ by exactly 1 and whose colors differ are
reported as ExactBoundary entries, with proven = true and the from→to
transition; in particular [(10, green), (11, amber)] for hospital X yields
(X, green→amber, 10, 11, proven = true). -/
theorem c3_exact_boundaries (h : String) (l : List Obs) :
    (sortObs l).Perm l
    ∧ List.Sorted obsLE (sortObs l)
    ∧ find_exact_boundaries h l = (adjPairs (sortObs l)).filterMap (fun pr =>
        if pr.2.count - pr.1.count = 1 ∧ pr.2.color ≠ pr.1.color then
          some { hospital := h, from_color := pr.1.color, to_color := pr.2.color,
                 below_threshold := pr.1.count, at_threshold := pr.2.count,
                 proven := true }
        else Option.none)
    ∧ find_exact_boundaries "X" c3obs =
        [{ hospital := "X", from_color := Color.green, to_color := Color.amber,
           below_threshold := 10, at_threshold := 11, proven := true }] := by
  refine ⟨List.perm_insertionSort _ l, List.sorted_insertionSort _ l, ?_, by decide⟩
  rw [find_exact_boundaries]
  cases hs : sortObs l with
  | nil => rfl
  | cons p rest =>
    rw [show scanExact h Option.none (p :: rest) = scanExact h (some p) rest from rfl,
        scanExact_eq_adjPairs]

/-- C4 counterexample: the classifier is not order independent: for the
class list ["red-x", "green-y"], which contains a class matching "green",
the result is red, not green. -/
theorem c4_class_order_refuted :
    extract_color ["red-x", "green-y"] = Color.red
    ∧ containsLowerS "green-y" "green" = true
    ∧ Color.red ≠ Color.green := by
  decide

/-- C4 (amended): the classifier scans the classes in input order and the
first class containing any keyword decides the result — green if that
class contains "green", else red if it contains "red", else amber for
"orange"/"amber"/"yellow" — with none when no class matches; the spec's
examples classify as stated. The classifier is a total function, hence
deterministic, but across distinct classes the first matching class wins,
so the result depends on class order. -/
theorem c4_first_class_classifier (classes : List String) :
    extract_color classes = firstMatchingClassColor classes
    ∧ extract_color ["text-green", "bold"] = Color.green
    ∧ extract_color ["amber-cell"] = Color.amber
    ∧ extract_color ["foo"] = Color.none := by
  refine ⟨?_, by decide, by decide, by decide⟩
  induction classes with
  | nil => rfl
  | cons c rest ih =>
    rw [extract_color_cons]
    cases hcc : classColor c with
    | none =>
      simp only [firstMatchingClassColor, List.filterMap_cons, hcc]
      exact ih
    | some col =>
      simp only [firstMatchingClassColor, List.filterMap_cons, hcc]

/-- C5 counterexample: the survey decoder emits a record for the boundary
text "HSE Totals", which starts with the region prefix marker and ends
with neither "Total" nor "Hospital" — per the claim it should have been
skipped as a regional header. -/
theorem c5_substring_header_refuted :
    (scrapeV2Go "01/01/2026" c5cex).map (fun r => r.hospital) = ["HSE Totals"]
    ∧ startsWithS "HSE Totals" "HSE " = true
    ∧ endsWithS "HSE Totals" "Total" = false
    ∧ endsWithS "HSE Totals" "Hospital" = false := by
  decide

/-- C5 (amended): neither decoder ever emits a record whose name satisfies
its own regional-header predicate; the survey decoder's predicate tests
that "Total" occurs nowhere in the name (not merely as a suffix), while
the daily master-row decoder's predicate tests the "Total"/"Hospital"
suffixes, and any name ending with "Total" or "Hospital" is a header for
neither, hence decoded as a real entity; a regional-header cell adjacent
to real hospital data produces no record in either decoder. -/
theorem c5_no_regional_header_records :
    (∀ (date : String) (fuel : Nat) (cells : List Cell) (r : RecordV2),
        r ∈ scrapeV2Fuel date fuel cells → isRegionalHeaderV2 r.hospital = false)
    ∧ (∀ (fuel : Nat) (cells : List Cell) (r : RecordOld),
        r ∈ parseMasterFuel fuel cells → isRegionalHeaderOld r.hospital = false)
    ∧ (∀ t : String, endsWithS t "Total" = true ∨ endsWithS t "Hospital" = true →
        isRegionalHeaderV2 t = false ∧ isRegionalHeaderOld t = false)
    ∧ (scrapeV2Go "03/01/2026" (regionalHeaderCell :: hospCells)).map
        (fun r => r.hospital) = ["University Hospital Limerick"]
    ∧ (parseMasterRow (regionalHeaderCell :: hospCells)).map
        (fun r => r.hospital) = ["University Hospital Limerick"]
    ∧ (scrapeV2Go "03/01/2026" totalCells).map
        (fun r => r.hospital) = ["HSE National Total"]
    ∧ (parseMasterRow totalCells).map
        (fun r => r.hospital) = ["HSE National Total"] := by
  refine ⟨scrapeV2Fuel_no_header, parseMasterFuel_no_header, ?_,
    by decide, by decide, by decide, by decide⟩
  intro t ht
  constructor
  · rw [isRegionalHeaderV2]
    rcases ht with h | h
    · simp [containsS_of_endsWithS h]
    · simp [h]
  · rw [isRegionalHeaderOld]
    rcases ht with h | h
    · simp [h]
    · simp [h]

theorem c5_no_regional_header_records_witness :
    isRegionalHeaderV2 "University Hospital Limerick" = false
    ∧ isRegionalHeaderOld "University Hospital Limerick" = false
    ∧ (isRegionalHeaderV2 "HSE National Total" = false
        ∧ isRegionalHeaderOld "HSE National Total" = false) :=
  ⟨c5_no_regional_header_records.1 "03/01/2026" 14 (regionalHeaderCell :: hospCells)
      { date := "03/01/2026", hospital := "University Hospital Limerick"
        ed_trolleys := some "9", ward_trolleys := some "7"
        total_trolleys := some "16", total_color := Color.none
        surge := some "2", delayed := some "0", delayed_color := Color.none
        gt_24hrs := some "1", gt_75_24hrs := some "0" } (by decide),
   c5_no_regional_header_records.2.1 14 (regionalHeaderCell :: hospCells)
      { hospital := "University Hospital Limerick"
        ed_trolleys := some "9", ward_trolleys := some "7"
        total_trolleys := some "16", surge_capacity := some "2"
        delayed_transfers := some "0", gt_24hrs := some "1"
        gt_75_24hrs := some "0" } (by decide),
   c5_no_regional_header_records.2.2.1 "HSE National Total" (Or.inl (by decide))⟩

/-- C6 counterexample: on a table of 1 header row, 1 qualifying row with 62
entity boundaries, and a trailing noise row, the selection returns nothing
(the first two rows are skipped unconditionally), not the qualifying
row. -/
theorem c6_one_header_row_refuted :
    boundaryCount c6header < 50
    ∧ boundaryCount c6qual = 62
    ∧ boundaryCount c6noise < 50
    ∧ findMasterRow [c6header, c6qual, c6noise] = Option.none
    ∧ findMasterRow [c6header, c6qual, c6noise] ≠ some c6qual := by
  decide

/-- C6 (amended): the extractor unconditionally skips the first two rows
and selects the first remaining row with at least 50 entity boundaries:
it returns nothing exactly when no row from the third onward qualifies
(the NoMasterRowFound failure, so no records are returned), any selected
row qualifies and is the first qualifying row from the third onward, and
on a table of 2 header rows, 1 qualifying row (62 boundaries) and trailing
noise it selects exactly the qualifying row. -/
theorem c6_master_row_selection :
    (∀ rows : List (List Cell), findMasterRow rows = Option.none ↔
        ∀ r ∈ rows.drop 2, boundaryCount r < 50)
    ∧ (∀ (rows : List (List Cell)) (r : List Cell), findMasterRow rows = some r →
        50 ≤ boundaryCount r
        ∧ ∃ pre post, rows.drop 2 = pre ++ r :: post
            ∧ ∀ x ∈ pre, boundaryCount x < 50)
    ∧ findMasterRow [c6header, c6header, c6qual, c6noise] = some c6qual := by
  refine ⟨?_, ?_, by decide⟩
  · intro rows
    rw [findMasterRow, List.find?_eq_none]
    constructor
    · intro hall r hr
      have h2 := hall r hr
      simp only [decide_eq_true_eq] at h2
      omega
    · intro hall x hx
      simp only [decide_eq_true_eq]
      have h2 := hall x hx
      omega
  · intro rows r hfind
    rw [findMasterRow] at hfind
    obtain ⟨pre, post, heq, hp, hpre⟩ := list_find?_first _ _ hfind
    refine ⟨by simpa using hp, pre, post, heq, ?_⟩
    intro x hx
    have h2 := hpre x hx
    simp only [decide_eq_false_iff_not] at h2
    omega

theorem c6_master_row_selection_witness :
    (findMasterRow [c6header, c6header, c6qual, c6noise] = Option.none ↔
        ∀ r ∈ [c6qual, c6noise], boundaryCount r < 50)
    ∧ 50 ≤ boundaryCount c6qual :=
  ⟨c6_master_row_selection.1 [c6header, c6header, c6qual, c6noise],
   (c6_master_row_selection.2.1 [c6header, c6header, c6qual, c6noise] c6qual
      (by decide)).1⟩

/-- C7 counterexample: for the history [(5, amber), (3, red)] both
thresholds are non-null but amberThreshold = 5 exceeds redThreshold = 3. -/
theorem c7_band_overlap_refuted :
    amber_threshold c7obs = some 5
    ∧ red_threshold c7obs = some 3
    ∧ ¬ ((5 : Int) ≤ 3) := by
  decide

/-- C7 (amended): if both inferred thresholds are non-null and every
amber-colored count is at most every red-colored count (the observed bands
do not overlap in the wrong direction), then
amberThreshold <= redThreshold. -/
theorem c7_threshold_order (l : List Obs) (a r : Int)
    (ha : amber_threshold l = some a) (hr : red_threshold l = some r)
    (hsep : ∀ x ∈ colorVals Color.amber l, ∀ y ∈ colorVals Color.red l, x ≤ y) :
    a ≤ r := by
  have hamin : ∃ amin, listMin (colorVals Color.amber l) = some amin ∧ a ≤ amin := by
    rcases ham : listMin (colorVals Color.amber l) with _ | amin
    · rcases hg : listMax (colorVals Color.green l) with _ | gmax <;>
        simp [amber_threshold, hg, ham] at ha
    · rcases hg : listMax (colorVals Color.green l) with _ | gmax
      · simp only [amber_threshold, hg, ham, Option.some.injEq] at ha
        exact ⟨amin, rfl, le_of_eq ha.symm⟩
      · simp only [amber_threshold, hg, ham, Option.some.injEq] at ha
        exact ⟨amin, rfl, by rw [← ha]; exact min_le_right _ _⟩
  obtain ⟨amin, ham, haa⟩ := hamin
  obtain ⟨haminMem, _⟩ := listMin_spec ham
  rcases hamax : listMax (colorVals Color.amber l) with _ | amax
  · rw [listMax_eq_none.mp hamax] at haminMem
    simp at haminMem
  rcases hrm : listMin (colorVals Color.red l) with _ | rmin
  · simp [red_threshold, hamax, hrm] at hr
  · simp only [red_threshold, hamax, hrm, Option.some.injEq] at hr
    obtain ⟨hrminMem, _⟩ := listMin_spec hrm
    obtain ⟨_, hmax_ge⟩ := listMax_spec hamax
    have h1 : amin ≤ amax := hmax_ge amin haminMem
    have h2 : amin ≤ rmin := hsep amin haminMem rmin hrminMem
    rw [← hr]
    refine le_min ?_ ?_ <;> omega

theorem c7_threshold_order_witness : (10 : Int) ≤ 11 :=
  c7_threshold_order [⟨"", 10, Color.amber⟩, ⟨"", 20, Color.red⟩] 10 11
    (by decide) (by decide) (by decide)

/-- C8 counterexample: the survey decoder emits a record for an entity
with only 2 non-empty statistic values among its 12 statistic cells — per
the claim an entity with fewer than 3 non-empty values yields no
record. -/
theorem c8_v2_sparse_entity_refuted :
    (scrapeV2Go "02/01/2026" c8cells).map (fun r => r.hospital)
      = ["Mercy University Hospital"]
    ∧ ((c8cells.drop 1).filter (fun c => c.text != "")).length = 2 := by
  decide

/-- C8 (amended): in `scrape_with_colors`, an entity row with fewer than 3
non-empty statistic values yields no record, without an exception, and the
other rows are still processed; in `scrape_with_colors_v2` the guard is on
the number of statistic cells collected, not on non-empty values: an
entity cut off by the end of the cell sequence (fewer than 11 cells
remaining) is dropped without an exception, while an entity with 11 or
more statistic cells yields a record however few are non-empty. -/
theorem c8_undersized_entity_dropped :
    (∀ (date : String) (row : List Cell), (v1Values row).length < 3 →
        rowRecordV1 date row = Option.none)
    ∧ (∀ (date : String) (rows1 rows2 : List (List Cell)) (bad : List Cell),
        rowRecordV1 date bad = Option.none →
        scrape_with_colors date (rows1 ++ bad :: rows2)
          = scrape_with_colors date rows1 ++ scrape_with_colors date rows2)
    ∧ scrapeV2Go "02/01/2026" c8trunc = []
    ∧ (scrapeV2Go "02/01/2026" c8cells).length = 1 := by
  refine ⟨rowRecordV1_undersized, ?_, by decide, by decide⟩
  intro date rows1 rows2 bad hbad
  simp [scrape_with_colors, List.filterMap_append, List.filterMap_cons, hbad]

theorem c8_undersized_entity_dropped_witness :
    rowRecordV1 "04/01/2026" (List.replicate 5 cellD) = Option.none
    ∧ scrape_with_colors "04/01/2026" ([hospCells] ++ (List.replicate 5 cellD) :: [])
        = scrape_with_colors "04/01/2026" [hospCells]
          ++ scrape_with_colors "04/01/2026" [] :=
  ⟨c8_undersized_entity_dropped.1 "04/01/2026" (List.replicate 5 cellD) (by decide),
   c8_undersized_entity_dropped.2.1 "04/01/2026" [hospCells] []
     (List.replicate 5 cellD)
     (c8_undersized_entity_dropped.1 "04/01/2026" (List.replicate 5 cellD)
       (by decide))⟩

/-- C9: appending rows already present leaves the stored row set unchanged
(same membership), appending the same row twice stores it once, and the
append-with-dedup operation is idempotent. -/
theorem c9_append_dedup (existing new : List CsvRow) (r : CsvRow)
    (h : ∀ x ∈ new, x ∈ existing) :
    (∀ x : CsvRow, x ∈ appendDedup existing new ↔ x ∈ existing)
    ∧ (appendDedup existing [r, r]).count r = 1
    ∧ appendDedup (appendDedup existing new) new = appendDedup existing new := by
  refine ⟨?_, ?_, ?_⟩
  · intro x
    simp only [appendDedup]
    rw [mem_dropDup, List.mem_append]
    constructor
    · rintro (hx | hx)
      · exact hx
      · exact h x hx
    · exact Or.inl
  · have hmem : r ∈ appendDedup existing [r, r] := by
      simp only [appendDedup]
      rw [mem_dropDup]
      simp
    have hnd : (appendDedup existing [r, r]).Nodup := nodup_dropDupSeen _ _
    exact List.count_eq_one_of_mem hnd hmem
  · simp only [appendDedup]
    have habs : dropDup (dropDup (existing ++ new) ++ new)
        = dropDup (dropDup (existing ++ new)) := by
      simp only [dropDup]
      exact dropDupSeen_append_absorb _ new []
        (fun x hx => Or.inr (mem_dropDup.mpr (List.mem_append.mpr (Or.inr hx))))
    rw [habs]
    exact dropDup_eq_self_of_nodup _ (nodup_dropDupSeen _ _)

theorem c9_append_dedup_witness :
    (c9row ∈ appendDedup [c9row, c9row2] [c9row] ↔ c9row ∈ [c9row, c9row2])
    ∧ (appendDedup [c9row, c9row2] [c9row, c9row]).count c9row = 1
    ∧ appendDedup (appendDedup [c9row, c9row2] [c9row]) [c9row]
        = appendDedup [c9row, c9row2] [c9row] :=
  ⟨(c9_append_dedup [c9row, c9row2] [c9row] c9row (by decide)).1 c9row,
   (c9_append_dedup [c9row, c9row2] [c9row] c9row (by decide)).2.1,
   (c9_append_dedup [c9row, c9row2] [c9row] c9row (by decide)).2.2⟩

/-- C10: the inline boundary finder reports, per hospital, one entry for
every adjacent pair of the count-sorted valid observations whose colors
differ, with the count difference recorded and no exactly-1 filtering:
a difference-3 pair and a difference-0 pair are both reported (while the
batch ExactBoundary analysis reports neither). -/
theorem c10_color_boundaries (h : String) (l : List Obs) :
    (find_color_boundaries h l = (adjPairs (sortObs l)).filterMap (fun pr =>
        if pr.1.color ≠ pr.2.color then
          some { hospital := h, from_value := pr.1.count, from_color := pr.1.color,
                 to_value := pr.2.count, to_color := pr.2.color,
                 difference := pr.2.count - pr.1.count,
                 from_date := pr.1.date, to_date := pr.2.date }
        else Option.none))
    ∧ find_color_boundaries "X" c10obs =
        [{ hospital := "X", from_value := 10, from_color := Color.green,
           to_value := 13, to_color := Color.amber, difference := 3,
           from_date := "01/01/2026", to_date := "02/01/2026" }]
    ∧ find_exact_boundaries "X" c10obs = []
    ∧ find_color_boundaries "Y" c10obs0 =
        [{ hospital := "Y", from_value := 7, from_color := Color.green,
           to_value := 7, to_color := Color.amber, difference := 0,
           from_date := "03/01/2026", to_date := "04/01/2026" }]
    ∧ find_exact_boundaries "Y" c10obs0 = [] := by
  refine ⟨?_, by decide, by decide, by decide, by decide⟩
  rw [find_color_boundaries]
  cases hs : sortObs l with
  | nil => rfl
  | cons p rest =>
    rw [show scanColorB h Option.none (p :: rest) = scanColorB h (some p) rest
          from rfl,
        scanColorB_eq_adjPairs]

end HSE

